import Mathlib

/-!
Verification of the signature/transaction codec of the hsm-signer repository.

The JavaScript source (`src/ethereum-hsm.js` and companions) is shallowly
embedded: Node `Buffer`s become `List Nat` (one `Nat` per byte), JavaScript
`BigInt`/`number` values become `Int`/`Nat`, exceptions become `Except`, and
the two external cryptographic collaborators — the `keccak` package's
Keccak-256 digest and `ethereumjs-util`'s `ecrecover` — are taken as
function parameters, since their implementations are not part of this
repository.
-/

/-- Big-endian interpretation of a byte sequence, as produced by
`BigInt('0x' + buf.toString('hex'))` in the source (the empty buffer is
taken to denote zero). -/
def beNat (l : List Nat) : Nat := l.foldl (fun a b => 256 * a + b) 0

/-- Fuel-driven base-256 digit extraction.  Mirrors the source loop
`while (bn > 0n) { bytes.push(Number(bn & 0xffn)); bn >>= 8n; }` followed by
`bytes.reverse()`; the fuel argument only forces termination and any fuel
of at least `n` yields the same result. -/
def natToBeBytesFuel : Nat → Nat → List Nat
  | 0, _ => []
  | fuel+1, n => if n = 0 then [] else natToBeBytesFuel fuel (n / 256) ++ [n % 256]

/-- Minimal big-endian byte representation of a natural number; zero maps to
the empty sequence (the RLP convention used throughout the source). -/
def natToBeBytes (n : Nat) : List Nat := natToBeBytesFuel n n

/-- Models `sNorm.toString(16).padStart(64, '0')` then hex-decoding: the
32-byte big-endian form of `n` (exact for `n < 2^256`, the only range the
source feeds it). -/
def natToBe32 (n : Nat) : List Nat :=
  List.replicate (32 - (natToBeBytes n).length) 0 ++ natToBeBytes n

/-- Source `stripLeadingZeros` (ethereum-hsm.js lines 632-636): drop leading
zero bytes; an all-zero buffer maps to the empty buffer. -/
def stripLeadingZeros (b : List Nat) : List Nat := b.dropWhile (· == 0)

/-- ASCII bytes of the decimal rendering of `n`, as produced by JavaScript
string interpolation of a number (no leading zeros, `0` renders as "0"). -/
def decimalDigitsAux : Nat → Nat → List Nat
  | 0, _ => []
  | fuel+1, n => if n = 0 then [] else decimalDigitsAux fuel (n / 10) ++ [48 + n % 10]

/-- ASCII decimal representation of a natural number. -/
def decimalAscii (n : Nat) : List Nat := if n = 0 then [48] else decimalDigitsAux n n

theorem beNat_append_single (l : List Nat) (b : Nat) :
    beNat (l ++ [b]) = 256 * beNat l + b := by
  simp [beNat, List.foldl_append]

theorem beNat_replicate_zero_append (k : Nat) (l : List Nat) :
    beNat (List.replicate k 0 ++ l) = beNat l := by
  induction k with
  | zero => rfl
  | succ k ih =>
    simpa [beNat, List.replicate_succ] using ih

theorem natToBeBytesFuel_spec :
    ∀ fuel n, n ≤ fuel →
      beNat (natToBeBytesFuel fuel n) = n ∧
      (∀ c rest, natToBeBytesFuel fuel n = c :: rest → c ≠ 0) := by
  intro fuel
  induction fuel with
  | zero =>
    intro n hn
    interval_cases n
    exact ⟨rfl, by intro c rest h; cases h⟩
  | succ fuel ih =>
    intro n hn
    by_cases h0 : n = 0
    · subst h0
      exact ⟨by simp [natToBeBytesFuel, beNat], by intro c rest h; simp [natToBeBytesFuel] at h⟩
    · have hdiv : n / 256 ≤ fuel := by
        have h1 : n / 256 < n := Nat.div_lt_self (Nat.pos_of_ne_zero h0) (by norm_num)
        omega
      obtain ⟨ihv, ihh⟩ := ih (n / 256) hdiv
      constructor
      · rw [natToBeBytesFuel, if_neg h0, beNat_append_single, ihv]
        exact Nat.div_add_mod n 256
      · intro c rest h
        rw [natToBeBytesFuel, if_neg h0] at h
        cases hrec : natToBeBytesFuel fuel (n / 256) with
        | nil =>
          rw [hrec] at h
          simp at h
          have hd : n / 256 = 0 := by rw [← ihv, hrec]; rfl
          have : n % 256 = n := by omega
          omega
        | cons c0 rest0 =>
          rw [hrec] at h
          simp at h
          exact h.1 ▸ ihh c0 rest0 hrec

theorem beNat_natToBeBytes (n : Nat) : beNat (natToBeBytes n) = n :=
  (natToBeBytesFuel_spec n n le_rfl).1

theorem natToBeBytes_no_leading_zero (n : Nat) :
    ∀ c rest, natToBeBytes n = c :: rest → c ≠ 0 :=
  (natToBeBytesFuel_spec n n le_rfl).2

theorem beNat_natToBe32 (n : Nat) : beNat (natToBe32 n) = n := by
  rw [natToBe32, beNat_replicate_zero_append, beNat_natToBeBytes]

/-- The JavaScript values the source's `toBufferFromHexOrNumber` dispatches
on: `undefined`/`null`, a hex string (represented here by the byte sequence
its hex digits denote, after the source's odd-length left-pad with '0'), a
`number`/`bigint`, or a `Buffer`. -/
inductive JsVal where
  | undef
  | hexStr (bytes : List Nat)
  | num (n : Int)
  | buf (b : List Nat)
deriving DecidableEq, Repr

/-- The `number`/`bigint` branch of `toBufferFromHexOrNumber` (ethereum-hsm.js
lines 435-444): zero returns the empty buffer, positive values yield minimal
big-endian bytes, and for a negative value the `while (bn > 0n)` loop runs
zero times so the empty buffer is returned as well — no error is raised. -/
def toBufferFromNumber (n : Int) : List Nat :=
  if n ≤ 0 then [] else natToBeBytes n.toNat

/-- Source `toBufferFromHexOrNumber` (ethereum-hsm.js lines 424-447).  The
hex-string branch strips leading zero BYTES from whatever the string denotes
(mapping all-zero to empty); a `Buffer` passes through unchanged. -/
def toBufferFromHexOrNumber : JsVal → List Nat
  | .undef => []
  | .hexStr bytes => stripLeadingZeros bytes
  | .num n => toBufferFromNumber n
  | .buf b => b

/-- Source `encodeLength` (ethereum-hsm.js lines 461-468): short form for
lengths below 56, else `offset + 55 + |len bytes|` followed by the minimal
big-endian bytes of the length. -/
def encodeLength (len offset : Nat) : List Nat :=
  if len < 56 then [len + offset]
  else (offset + 55 + (natToBeBytes len).length) :: natToBeBytes len

/-- The byte-string branch of the source `rlpEncode`: a single byte below
0x80 is its own encoding, anything else gets a length header. -/
def rlpEncodeBytes (buf : List Nat) : List Nat :=
  match buf with
  | [b] => if b < 0x80 then [b] else encodeLength 1 0x80 ++ [b]
  | _ => encodeLength buf.length 0x80 ++ buf

/-- Argument shape accepted by the source `rlpEncode`: a nested array whose
leaves are values fed through `toBufferFromHexOrNumber`. -/
inductive RlpInput where
  | item (v : JsVal)
  | list (items : List RlpInput)

mutual
/-- Source `rlpEncode` (ethereum-hsm.js lines 449-459): leaves go through
`toBufferFromHexOrNumber`; arrays encode each element, concatenate, and
prepend a `0xc0`-offset length header. -/
def rlpEncode : RlpInput → List Nat
  | .item v => rlpEncodeBytes (toBufferFromHexOrNumber v)
  | .list items =>
      let payload := rlpEncodeItems items
      encodeLength payload.length 0xc0 ++ payload
/-- Concatenation of the encodings of a list of RLP inputs
(`Buffer.concat(input.map(rlpEncode))` in the source). -/
def rlpEncodeItems : List RlpInput → List Nat
  | [] => []
  | x :: xs => rlpEncode x ++ rlpEncodeItems xs
end

/-- The spec's RLPValue data model: a recursive sum of byte-strings and
sequences, with no other shapes. -/
inductive RLPValue where
  | bytes (b : List Nat)
  | list (vs : List RLPValue)

/-- Length header written from the spec's words: below 56 a single byte
`offset + L`; otherwise `offset + 0x37 + lengthOfLengthPrefix(L)` followed by
the minimal big-endian encoding of `L` (0x80 + 0x37 = 0xb7, 0xc0 + 0x37 =
0xf7). -/
def specLengthHeader (len offset : Nat) : List Nat :=
  if len < 56 then [offset + len]
  else (offset + 0x37 + (natToBeBytes len).length) :: natToBeBytes len

mutual
/-- RLP encoding written from the spec's rules, for comparison with the
source `rlpEncode`: a single byte below 0x80 encodes as itself; any other
byte-string gets a `0x80`-offset header; a list is the concatenation of its
recursively encoded elements behind a `0xc0`-offset header. -/
def rlpSpec : RLPValue → List Nat
  | .bytes b =>
      match b with
      | [x] => if x < 0x80 then [x] else specLengthHeader 1 0x80 ++ [x]
      | _ => specLengthHeader b.length 0x80 ++ b
  | .list vs =>
      let payload := rlpSpecList vs
      specLengthHeader payload.length 0xc0 ++ payload
/-- Concatenated encodings of a sequence of RLPValues. -/
def rlpSpecList : List RLPValue → List Nat
  | [] => []
  | v :: vs => rlpSpec v ++ rlpSpecList vs
end

mutual
/-- Injection of the spec's RLPValue into the source encoder's input type:
byte-strings become `Buffer` leaves. -/
def toRlpInput : RLPValue → RlpInput
  | .bytes b => .item (.buf b)
  | .list vs => .list (toRlpInputList vs)
/-- Elementwise injection of a sequence of RLPValues. -/
def toRlpInputList : List RLPValue → List RlpInput
  | [] => []
  | v :: vs => toRlpInput v :: toRlpInputList vs
end

mutual
theorem rlp_code_eq_spec : ∀ v : RLPValue, rlpEncode (toRlpInput v) = rlpSpec v
  | .bytes b => by
      cases b with
      | nil => rfl
      | cons x xs =>
        cases xs with
        | nil =>
          by_cases hx : x < 0x80 <;>
            simp [toRlpInput, rlpEncode, rlpSpec, rlpEncodeBytes, toBufferFromHexOrNumber,
              encodeLength, specLengthHeader, hx, Nat.add_comm]
        | cons y ys =>
          simp [toRlpInput, rlpEncode, rlpSpec, rlpEncodeBytes, toBufferFromHexOrNumber,
            encodeLength, specLengthHeader, Nat.add_comm]
  | .list vs => by
      simp only [toRlpInput, rlpEncode, rlpSpec]
      rw [rlpList_code_eq_spec vs]
      simp [encodeLength, specLengthHeader, Nat.add_comm]
theorem rlpList_code_eq_spec : ∀ vs : List RLPValue,
    rlpEncodeItems (toRlpInputList vs) = rlpSpecList vs
  | [] => rfl
  | v :: vs => by
      simp only [toRlpInputList, rlpEncodeItems, rlpSpecList]
      rw [rlp_code_eq_spec v, rlpList_code_eq_spec vs]
end

/-- Errors raised while decoding the device-reported EC point: the outer
OCTET-STRING tag check ("Expected OCTET STRING") and the uncompressed-point
marker check ("Only uncompressed EC points are supported"). -/
inductive PointError where
  | malformedECPoint
  | unsupportedPointCompression
deriving DecidableEq, Repr

/-- Source `decodeEcPoint` (ethereum-hsm.js lines 208-212): reject unless
byte 0 is 0x04, read byte 1 as the content length, and return
`slice(2, 2 + len)`.  Indexing past the end of a JavaScript Buffer yields
`undefined`, which fails the `=== 0x04` comparison and makes the slice
bound `NaN` (an empty slice); `headD 0` / `getD 1 0` reproduce both.  No
check that the buffer actually holds `2 + len` bytes is performed: `slice`
silently truncates. -/
def decodeEcPoint (b : List Nat) : Except PointError (List Nat) :=
  if b.headD 0 ≠ 0x04 then .error .malformedECPoint
  else .ok ((b.drop 2).take (b.getD 1 0))

/-- The decode-and-strip sequence every caller of `decodeEcPoint` performs
(ethereum-hsm.js lines 188-196, 313-318, 484-487): run `decodeEcPoint`,
require the raw point's first byte to be the 0x04 uncompressed marker
(an out-of-range read is `undefined` and also fails), and drop it. -/
def decodeUncompressedPoint (b : List Nat) : Except PointError (List Nat) :=
  match decodeEcPoint b with
  | .error e => .error e
  | .ok raw =>
      match raw with
      | [] => .error .unsupportedPointCompression
      | c :: rest => if c = 0x04 then .ok rest else .error .unsupportedPointCompression

/-- Source `deriveEthereumAddress` (ethereum-hsm.js lines 181-206), with the
Keccak-256 digest of the `keccak` package as a parameter: decode the point,
hash the 64-byte key material, and keep the last 20 bytes (`hash.slice(-20)`;
the hex rendering of the result is omitted as a trivial bijection). -/
def deriveEthereumAddress (keccak : List Nat → List Nat) (ecPoint : List Nat) :
    Except PointError (List Nat) :=
  match decodeUncompressedPoint ecPoint with
  | .error e => .error e
  | .ok keyBytes =>
      let hash := keccak keyBytes
      .ok (hash.drop (hash.length - 20))

/-- Source constant `SECP256K1_N` (ethereum-hsm.js line 475): the secp256k1
curve order. -/
def SECP256K1_N : Nat :=
  0xFFFFFFFFFFFFFFFFFFFFFFFFFFFFFFFEBAAEDCE6AF48A03BBFD25E8CD0364141

/-- Source constant `SECP256K1_N_DIV_2` (line 476): the half-order
`SECP256K1_N >> 1n`. -/
def SECP256K1_N_DIV_2 : Nat := SECP256K1_N / 2

/-- Type of the external `ecrecover` collaborator from `ethereumjs-util`:
arguments are (message hash, recovery candidate, r, s); `none` models a
thrown recovery error. -/
def EcRecover : Type :=
  List Nat → Nat → List Nat → List Nat → Option (List Nat)

/-- The recovery-id search loop shared by the source's signing functions
(ethereum-hsm.js lines 325-342 and 502-517): try candidates 0 then 1,
swallowing recovery exceptions, and accept the first candidate whose
recovered point equals the expected public key byte-for-byte. -/
def searchRecoveryId (ecr : EcRecover) (hash r s pubXY : List Nat) : Option Nat :=
  match ecr hash 0 r s with
  | some pub =>
      if pub = pubXY then some 0
      else
        match ecr hash 1 r s with
        | some pub2 => if pub2 = pubXY then some 1 else none
        | none => none
  | none =>
      match ecr hash 1 r s with
      | some pub2 => if pub2 = pubXY then some 1 else none
      | none => none

/-- The r, s, v triple returned by the source signing functions. -/
structure SigResult where
  r : List Nat
  s : List Nat
  v : Nat
deriving DecidableEq, Repr

/-- Errors of the signing paths: EC-point decode failures and the
"Could not determine recovery id (v)" condition. -/
inductive HsmError where
  | pointDecode (e : PointError)
  | recoveryIdNotFound
deriving DecidableEq, Repr

/-- Source `signHashWithHsmAndComputeV` (ethereum-hsm.js lines 478-524), with
the HSM signature over `hash32` (`sign.once(hash32)`, a 64-byte r ‖ s buffer)
and `ecrecover` as parameters: split off r and s, decode the expected public
key, replace s by `N - s` when its big-endian value exceeds the half-order,
then search the recovery id against the normalized pair. -/
def signHashWithHsmAndComputeV (ecr : EcRecover) (sig ecPoint hash32 : List Nat) :
    Except HsmError SigResult :=
  let r := sig.take 32
  let s0 := (sig.drop 32).take 32
  match decodeUncompressedPoint ecPoint with
  | .error e => .error (.pointDecode e)
  | .ok pubXY =>
      let sBig := beNat s0
      let s := if SECP256K1_N_DIV_2 < sBig then natToBe32 (SECP256K1_N - sBig) else s0
      match searchRecoveryId ecr hash32 r s pubXY with
      | some v => .ok ⟨r, s, v⟩
      | none => .error .recoveryIdNotFound

/-- UTF-8 encoding of a Unicode code point (what `Buffer.from(str, 'utf8')`
emits per character). -/
def utf8Char (c : Nat) : List Nat :=
  if c < 0x80 then [c]
  else if c < 0x800 then [0xC0 + c / 64, 0x80 + c % 64]
  else if c < 0x10000 then [0xE0 + c / 4096, 0x80 + c / 64 % 64, 0x80 + c % 64]
  else [0xF0 + c / 262144, 0x80 + c / 4096 % 64, 0x80 + c / 64 % 64, 0x80 + c % 64]

/-- UTF-8 bytes of a message given as a list of Unicode code points. -/
def utf8Bytes (message : List Nat) : List Nat := (message.map utf8Char).flatten

/-- JavaScript `message.length`: the UTF-16 code-unit count of the string —
code points at or above 0x10000 count twice. -/
def utf16Length (message : List Nat) : Nat :=
  (message.map (fun c => if c < 0x10000 then 1 else 2)).sum

/-- UTF-8 bytes of the literal prefix "\x19Ethereum Signed Message:\n"
(0x19, the 24 ASCII characters, 0x0A). -/
def msgHeaderBytes : List Nat :=
  [0x19, 69, 116, 104, 101, 114, 101, 117, 109, 32, 83, 105, 103, 110, 101, 100,
   32, 77, 101, 115, 115, 97, 103, 101, 58, 0x0A]

/-- The bytes the source hashes for a personal message (ethereum-hsm.js
lines 296-299): UTF-8 of
`"\x19Ethereum Signed Message:\n" + message.length + message`, where
`message.length` is JavaScript's UTF-16 code-unit count. -/
def personalMessagePreimage (message : List Nat) : List Nat :=
  msgHeaderBytes ++ decimalAscii (utf16Length message) ++ utf8Bytes message

/-- The preimage the spec prescribes for `personalMessageHash`: the length
token is the decimal representation of the message's UTF-8 BYTE length. -/
def personalMessagePreimageSpec (message : List Nat) : List Nat :=
  msgHeaderBytes ++ decimalAscii (utf8Bytes message).length ++ utf8Bytes message

/-- Source `signEthereumMessage` (ethereum-hsm.js lines 294-367), with the
Keccak digest, the `ecrecover` collaborator, and the HSM's 64-byte r ‖ s
signature as parameters: hash the prefixed message, split r and s (no low-S
normalization), decode the expected public key, search the recovery id
against the ORIGINAL (r, s), and return v = recoveryId + 27. -/
def signEthereumMessage (keccak : List Nat → List Nat) (ecr : EcRecover)
    (sig ecPoint message : List Nat) : Except HsmError SigResult :=
  let messageHash := keccak (personalMessagePreimage message)
  let r := sig.take 32
  let s := (sig.drop 32).take 32
  match decodeUncompressedPoint ecPoint with
  | .error e => .error (.pointDecode e)
  | .ok pubXY =>
      match searchRecoveryId ecr messageHash r s pubXY with
      | some i => .ok ⟨r, s, i + 27⟩
      | none => .error .recoveryIdNotFound

/-- The caller-supplied `params` object of `signAndSendEtherTransaction`
(ethereum-hsm.js line 529): optional chain id (`?? 11155111`), gas limit,
optional recipient, optional value (`?? 0`), optional calldata.  The sender
address and RPC url feed only the external JSON-RPC calls and are omitted;
the nonce and gas price those calls return are passed alongside. -/
structure TxParams where
  chainId : Option Nat
  gasLimit : JsVal
  toAddr : Option JsVal
  valueWei : Option JsVal
  data : Option JsVal

/-- Conversion applied to the optional `to` / `data` fields
(`params.to ? toBufferFromHexOrNumber(params.to) : Buffer.alloc(0)`). -/
def codeToBuf : Option JsVal → List Nat
  | some v => toBufferFromHexOrNumber v
  | none => []

/-- Source EIP-155 v computation (ethereum-hsm.js line 596):
`BigInt(chainId) * 2n + 35n + BigInt(v)`. -/
def vFinalOf (chainId recId : Nat) : Nat := chainId * 2 + 35 + recId

/-- Modelled from the spec: decoding an EIP-155 `vFinal` back to its recovery
id; the source only encodes (line 596), no decoder exists under src/, so the
inverse of `chainId*2 + 35 + recoveryId` with `recoveryId ∈ {0,1}` is taken
from the spec's round-trip property. -/
def eip155RecId (vFinal : Nat) : Nat := (vFinal - 35) % 2

/-- Modelled from the spec: decoding an EIP-155 `vFinal` back to its chain
id (see `eip155RecId`). -/
def eip155ChainId (vFinal : Nat) : Nat := (vFinal - 35 - eip155RecId vFinal) / 2

/-- ASCII code of the lowercase hex digit for `n < 16`, as produced by
`Buffer.toString('hex')`. -/
def hexDigitAscii (n : Nat) : Nat := if n < 10 then 48 + n else 87 + n

/-- Lowercase hex rendering of a byte buffer, as ASCII codes. -/
def toHexAscii (b : List Nat) : List Nat :=
  (b.map (fun x => [hexDigitAscii (x / 16), hexDigitAscii (x % 16)])).flatten

/-- A 0x-prefixed lowercase hex string (as ASCII codes), the shape the source
broadcasts (`'0x' + rlpEncode(signed).toString('hex')`). -/
def hexWith0x (b : List Nat) : List Nat := 48 :: 120 :: toHexAscii b

/-- Core of source `signAndSendEtherTransaction` (ethereum-hsm.js lines
529-630), with the network effects factored out: the fetched nonce and gas
price are arguments, and the returned value is the raw-transaction hex
string handed to `eth_sendRawTransaction` rather than the RPC response.
Field buffers are built exactly as in lines 569-575, the unsigned 9-tuple
with `(chainId, 0, 0)` placeholders is RLP-encoded and Keccak-hashed, the
hash is signed via `signHashWithHsmAndComputeV`, and the signed 9-tuple with
the EIP-155 v and zero-stripped r, s is RLP-encoded and hex-rendered. -/
def signAndSendEtherTransaction (keccak : List Nat → List Nat) (ecr : EcRecover)
    (hsmSig ecPoint : List Nat) (nonce gasPriceWei : Int) (p : TxParams) :
    Except HsmError (List Nat) :=
  let chainId := p.chainId.getD 11155111
  let nonceBuf := toBufferFromNumber nonce
  let gasPriceBuf := toBufferFromNumber gasPriceWei
  let gasLimitBuf := toBufferFromHexOrNumber p.gasLimit
  let toBuf := codeToBuf p.toAddr
  let valueBuf := toBufferFromHexOrNumber (p.valueWei.getD (.num 0))
  let dataBuf := codeToBuf p.data
  let chainIdBuf := toBufferFromNumber (chainId : Int)
  let unsignedForSig : RlpInput := .list [.item (.buf nonceBuf), .item (.buf gasPriceBuf),
    .item (.buf gasLimitBuf), .item (.buf toBuf), .item (.buf valueBuf), .item (.buf dataBuf),
    .item (.buf chainIdBuf), .item (.buf []), .item (.buf [])]
  let msgHash := keccak (rlpEncode unsignedForSig)
  match signHashWithHsmAndComputeV ecr hsmSig ecPoint msgHash with
  | .error e => .error e
  | .ok sr =>
      let vFinal := vFinalOf chainId sr.v
      let signed : RlpInput := .list [.item (.buf nonceBuf), .item (.buf gasPriceBuf),
        .item (.buf gasLimitBuf), .item (.buf toBuf), .item (.buf valueBuf), .item (.buf dataBuf),
        .item (.buf (toBufferFromNumber (vFinal : Int))), .item (.buf (stripLeadingZeros sr.r)),
        .item (.buf (stripLeadingZeros sr.s))]
      .ok (hexWith0x (rlpEncode signed))

/-- The spec's `buildUnsignedForSigning`, written from its words: Keccak-256
of the RLP encoding of the 9-tuple `(nonce, gasPrice, gasLimit, to, value,
data, chainId, emptyBytes, emptyBytes)`, the fields given as their byte
encodings. -/
def buildUnsignedForSigning (keccak : List Nat → List Nat)
    (nonceB gasPriceB gasLimitB toB valueB dataB chainIdB : List Nat) : List Nat :=
  keccak (rlpSpec (.list [.bytes nonceB, .bytes gasPriceB, .bytes gasLimitB, .bytes toB,
    .bytes valueB, .bytes dataB, .bytes chainIdB, .bytes [], .bytes []]))

/-- The spec's `finalize`, written from its words: `vFinal = chainId*2 + 35 +
recoveryId`, RLP encoding of the 9-tuple `(nonce, gasPrice, gasLimit, to,
value, data, vFinal, stripLeadingZeros(r), stripLeadingZeros(s))` (`vFinal`
as a minimal-byte integer), rendered as 0x-prefixed hex. -/
def finalizeTransaction (chainId recId : Nat)
    (nonceB gasPriceB gasLimitB toB valueB dataB r s : List Nat) : List Nat :=
  hexWith0x (rlpSpec (.list [.bytes nonceB, .bytes gasPriceB, .bytes gasLimitB, .bytes toB,
    .bytes valueB, .bytes dataB, .bytes (natToBeBytes (chainId * 2 + 35 + recId)),
    .bytes (stripLeadingZeros r), .bytes (stripLeadingZeros s)]))

theorem searchRecoveryId_sound {ecr : EcRecover} {hash r s pubXY : List Nat} {v : Nat}
    (h : searchRecoveryId ecr hash r s pubXY = some v) :
    ecr hash v r s = some pubXY := by
  unfold searchRecoveryId at h
  cases h0 : ecr hash 0 r s with
  | some pub =>
    rw [h0] at h
    dsimp only at h
    by_cases hp : pub = pubXY
    · rw [if_pos hp] at h
      injection h with hv
      rw [← hv, h0, hp]
    · rw [if_neg hp] at h
      cases h1 : ecr hash 1 r s with
      | some pub2 =>
        rw [h1] at h
        dsimp only at h
        by_cases hp2 : pub2 = pubXY
        · rw [if_pos hp2] at h
          injection h with hv
          rw [← hv, h1, hp2]
        · rw [if_neg hp2] at h; cases h
      | none => rw [h1] at h; cases h
  | none =>
    rw [h0] at h
    dsimp only at h
    cases h1 : ecr hash 1 r s with
    | some pub2 =>
      rw [h1] at h
      dsimp only at h
      by_cases hp2 : pub2 = pubXY
      · rw [if_pos hp2] at h
        injection h with hv
        rw [← hv, h1, hp2]
      · rw [if_neg hp2] at h; cases h
    | none => rw [h1] at h; cases h

theorem toBufferFromNumber_natCast (m : Nat) (h : 0 < m) :
    toBufferFromNumber (m : Int) = natToBeBytes m := by
  rw [toBufferFromNumber, if_neg (by exact_mod_cast Nat.not_le.mpr h)]
  norm_num

/-- C3 counterexample: the claim asserts `vFinal = 22310958` for
chainId = 11155111 and recoveryId = 1, but the source's EIP-155 formula
`chainId*2 + 35 + recoveryId` yields 22310258 there, so the claimed value is
wrong (and decoding 22310958 would give chainId 11155461, not 11155111). -/
theorem C3_counterexample :
    vFinalOf 11155111 1 = 22310258 ∧ vFinalOf 11155111 1 ≠ 22310958 ∧
    eip155ChainId 22310958 ≠ 11155111 := by
  decide

/-- C3 (amended): for chainId = 11155111 and recoveryId = 1 the EIP-155
final v equals 22310258, and decoding that value recovers chainId 11155111
and recoveryId 1. -/
theorem C3_eip155_v_round_trip :
    vFinalOf 11155111 1 = 22310258 ∧
    eip155ChainId (vFinalOf 11155111 1) = 11155111 ∧
    eip155RecId (vFinalOf 11155111 1) = 1 := by
  decide

/-- C5: the claim requires the personal-message length token to be the
decimal UTF-8 BYTE length of the message, but the source interpolates the
JavaScript `message.length` (UTF-16 code-unit count).  For the one-character
message "é" (code point 0xE9, UTF-8 bytes C3 A9) the source hashes the
token "1" (0x31) where the claim requires "2" (0x32), so the hashed
preimages differ. -/
theorem C5_personal_hash_length_token_mismatch :
    personalMessagePreimage [0xE9] = msgHeaderBytes ++ [0x31, 0xC3, 0xA9] ∧
    personalMessagePreimageSpec [0xE9] = msgHeaderBytes ++ [0x32, 0xC3, 0xA9] ∧
    personalMessagePreimage [0xE9] ≠ personalMessagePreimageSpec [0xE9] := by
  decide

/-- Byte form of the well-known Ethereum deposit-contract address
0x00000000219ab540356cbb839cbe05303d7705fa, whose four leading zero bytes
are significant. -/
def depositContractAddress : List Nat :=
  [0x00, 0x00, 0x00, 0x00, 0x21, 0x9A, 0xB5, 0x40, 0x35, 0x6C, 0xBB, 0x83,
   0x9C, 0xBE, 0x05, 0x30, 0x3D, 0x77, 0x05, 0xFA]

/-- C8: the claim says the to-address and data fields are RLP-encoded as raw
byte-strings with leading zero bytes preserved, but the source routes them
through `toBufferFromHexOrNumber`, whose hex-string branch strips leading
zero bytes.  A 20-byte recipient address beginning with zero bytes is
truncated to 16 bytes before RLP encoding. -/
theorem C8_address_leading_zero_bytes_stripped :
    codeToBuf (some (.hexStr depositContractAddress)) =
      [0x21, 0x9A, 0xB5, 0x40, 0x35, 0x6C, 0xBB, 0x83, 0x9C, 0xBE, 0x05, 0x30,
       0x3D, 0x77, 0x05, 0xFA] ∧
    (codeToBuf (some (.hexStr depositContractAddress))).length = 16 ∧
    codeToBuf (some (.hexStr depositContractAddress)) ≠ depositContractAddress := by
  decide

/-- C9 counterexample: the claim asserts `toMinimalBytes` fails with
`InvalidEncodingInput` exactly on negative input, but the source's numeric
branch raises nothing for a negative value: its extraction loop runs zero
times and the value -5 yields the same successful empty buffer as 0. -/
theorem C9_counterexample :
    toBufferFromNumber (-5) = [] ∧ toBufferFromNumber (-5) = toBufferFromNumber 0 := by
  decide

/-- C9 (amended): the numeric conversion is total — it never fails; a
negative integer maps to the empty sequence (instead of failing), zero maps
to the empty sequence, and a non-negative integer maps to the shortest
big-endian representation (value-correct with no leading zero byte), with no
side effects. -/
theorem C9_to_minimal_bytes_behaviour (n : Int) :
    (n < 0 → toBufferFromNumber n = []) ∧
    (n = 0 → toBufferFromNumber n = []) ∧
    (0 ≤ n → beNat (toBufferFromNumber n) = n.toNat ∧
      ∀ c rest, toBufferFromNumber n = c :: rest → c ≠ 0) := by
  refine ⟨fun hneg => ?_, fun hzero => ?_, fun hpos => ?_⟩
  · rw [toBufferFromNumber, if_pos hneg.le]
  · rw [toBufferFromNumber, if_pos hzero.le]
  · by_cases h0 : n = 0
    · subst h0
      exact ⟨by rw [toBufferFromNumber]; rfl, by intro c rest h; rw [toBufferFromNumber] at h; cases h⟩
    · have hlt : ¬ n ≤ 0 := by omega
      rw [toBufferFromNumber, if_neg hlt]
      exact ⟨beNat_natToBeBytes n.toNat, natToBeBytes_no_leading_zero n.toNat⟩

/-- Witness for C9: the amended statement applied at -7 and at 300. -/
theorem C9_witness :
    toBufferFromNumber (-7) = [] ∧
    beNat (toBufferFromNumber 300) = (300 : Int).toNat :=
  ⟨(C9_to_minimal_bytes_behaviour (-7)).1 (by norm_num),
   ((C9_to_minimal_bytes_behaviour 300).2.2 (by norm_num)).1⟩

/-- C6 counterexample: the claim says the decoder, when both 0x04 checks
pass, returns "the remaining 64 bytes"; the buffer [04 02 04 AA] passes both
checks yet the decoder returns the single byte AA, not 64 bytes. -/
theorem C6_counterexample :
    decodeUncompressedPoint [0x04, 0x02, 0x04, 0xAA] = .ok [0xAA] ∧
    ([0xAA] : List Nat).length ≠ 64 := by
  exact ⟨rfl, by decide⟩

/-- C6 (amended): for every input buffer the decoder fails with
MalformedECPoint whenever byte 0 is not 0x04 (never silently producing an
address); otherwise it reads byte 1 as the content length, takes bytes
[2, 2+length) as the raw point, fails with UnsupportedPointCompression if
that raw point is empty or its first byte is not 0x04, and otherwise strips
that marker and returns the remaining bytes of the raw point (which are 64
only when the raw point is a full 65-byte uncompressed point). -/
theorem C6_point_decoder_checks (b : List Nat) :
    (b.headD 0 ≠ 0x04 → decodeUncompressedPoint b = .error .malformedECPoint) ∧
    (b.headD 0 = 0x04 → (b.drop 2).take (b.getD 1 0) = [] →
      decodeUncompressedPoint b = .error .unsupportedPointCompression) ∧
    (b.headD 0 = 0x04 → ∀ c rest, (b.drop 2).take (b.getD 1 0) = c :: rest → c ≠ 0x04 →
      decodeUncompressedPoint b = .error .unsupportedPointCompression) ∧
    (b.headD 0 = 0x04 → ∀ rest, (b.drop 2).take (b.getD 1 0) = 0x04 :: rest →
      decodeUncompressedPoint b = .ok rest) := by
  refine ⟨fun h => ?_, fun h hnil => ?_, fun h c rest hr hc => ?_, fun h rest hr => ?_⟩
  · unfold decodeUncompressedPoint decodeEcPoint
    rw [if_pos h]
  · unfold decodeUncompressedPoint decodeEcPoint
    rw [if_neg (fun hcon => hcon h), hnil]
  · unfold decodeUncompressedPoint decodeEcPoint
    rw [if_neg (fun hcon => hcon h), hr]
    dsimp only
    rw [if_neg hc]
  · unfold decodeUncompressedPoint decodeEcPoint
    rw [if_neg (fun hcon => hcon h), hr]
    dsimp only
    rw [if_pos rfl]

/-- Witness for C6: the four branches applied at concrete buffers — a wrong
outer tag, a compressed inner point, and a well-formed 67-byte attribute
holding a full 65-byte uncompressed point. -/
theorem C6_witness :
    decodeUncompressedPoint [0x05, 0x01, 0x04] = .error .malformedECPoint ∧
    decodeUncompressedPoint [0x04, 0x01, 0x07] = .error .unsupportedPointCompression ∧
    decodeUncompressedPoint ([0x04, 65, 0x04] ++ List.replicate 64 9) =
      .ok (List.replicate 64 9) :=
  ⟨(C6_point_decoder_checks [0x05, 0x01, 0x04]).1 (by decide),
   (C6_point_decoder_checks [0x04, 0x01, 0x07]).2.2.1 (by decide) 0x07 [] (by decide)
     (by decide),
   (C6_point_decoder_checks ([0x04, 65, 0x04] ++ List.replicate 64 9)).2.2.2 (by decide)
     (List.replicate 64 9) (by decide)⟩

/-- C10: the EC-point decoder performs no bounds check against the declared
length: whenever byte 0 is 0x04 but the buffer holds fewer than 2 + (byte 1)
bytes, `decodeEcPoint` still succeeds and the slice silently truncates to
the bytes actually available; concretely, the 4-byte buffer [04 41 04 AA]
(declared content length 65) decodes to the single byte AA, and address
derivation accepts that 1-byte key material and hashes it. -/
theorem C10_no_bounds_check :
    (∀ b : List Nat, b.headD 0 = 0x04 → b.length < 2 + b.getD 1 0 →
      decodeEcPoint b = .ok (b.drop 2)) ∧
    (decodeUncompressedPoint [0x04, 65, 0x04, 0xAA] = .ok [0xAA] ∧
      ([0xAA] : List Nat).length < 64 ∧
      ∀ keccak : List Nat → List Nat,
        deriveEthereumAddress keccak [0x04, 65, 0x04, 0xAA] =
          .ok ((keccak [0xAA]).drop ((keccak [0xAA]).length - 20))) := by
  refine ⟨fun b h hshort => ?_, rfl, by decide, fun keccak => rfl⟩
  rw [decodeEcPoint, if_neg (fun hcon => hcon h)]
  have hlen : (b.drop 2).length ≤ b.getD 1 0 := by
    simp only [List.length_drop]
    omega
  rw [List.take_of_length_le hlen]

/-- The 32-byte big-endian form of SECP256K1_N - 1, a maximal valid
(and maximally high-S) s value an HSM can return. -/
def sHighBytes : List Nat :=
  [0xFF, 0xFF, 0xFF, 0xFF, 0xFF, 0xFF, 0xFF, 0xFF, 0xFF, 0xFF, 0xFF, 0xFF, 0xFF,
   0xFF, 0xFF, 0xFE, 0xBA, 0xAE, 0xDC, 0xE6, 0xAF, 0x48, 0xA0, 0x3B, 0xBF, 0xD2,
   0x5E, 0x8C, 0xD0, 0x36, 0x41, 0x40]

/-- C1: the claim asserts that BOTH signing paths emit a low-S signature,
replacing s by N - s when it exceeds N/2.  The transaction path
(`signHashWithHsmAndComputeV`) does so — third conjunct: fed an HSM
signature whose s is N - 1, it returns the normalized s = 1.  But the
personal-message path (`signEthereumMessage`) performs no normalization at
all: fed the same signature it returns s = N - 1 unchanged (first
conjunct), whose big-endian value exceeds the half-order (second conjunct),
violating the claimed invariant.  The stubbed `ecrecover` always returns
the expected public key so that both searches succeed at candidate 0. -/
theorem C1_low_s_not_enforced_on_message_path :
    signEthereumMessage (fun _ => List.replicate 32 9) (fun _ _ _ _ => some (List.replicate 64 7))
        (List.replicate 32 2 ++ sHighBytes) ([0x04, 65, 0x04] ++ List.replicate 64 7) [] =
      .ok ⟨List.replicate 32 2, sHighBytes, 27⟩ ∧
    SECP256K1_N_DIV_2 < beNat sHighBytes ∧
    signHashWithHsmAndComputeV (fun _ _ _ _ => some (List.replicate 64 7))
        (List.replicate 32 2 ++ sHighBytes) ([0x04, 65, 0x04] ++ List.replicate 64 7)
        (List.replicate 32 9) =
      .ok ⟨List.replicate 32 2, List.replicate 31 0 ++ [1], 0⟩ := by
  refine ⟨rfl, by decide, ?_⟩
  rfl

/-- C2: whenever the transaction-path resolver succeeds and returns
(r, s, v), running the `ecrecover` collaborator over the exact four values
(hash, v, r, s) — s being the normalized low-S value the search was
performed against — yields the expected 64-byte public key byte-for-byte. -/
theorem C2_recovery_round_trip (ecr : EcRecover) (sig ecPoint hash32 pubXY r s : List Nat)
    (v : Nat) (_hlen : sig.length = 64)
    (hpub : decodeUncompressedPoint ecPoint = .ok pubXY)
    (hok : signHashWithHsmAndComputeV ecr sig ecPoint hash32 = .ok ⟨r, s, v⟩) :
    ecr hash32 v r s = some pubXY := by
  unfold signHashWithHsmAndComputeV at hok
  rw [hpub] at hok
  dsimp only at hok
  cases hs : searchRecoveryId ecr hash32 (sig.take 32)
      (if SECP256K1_N_DIV_2 < beNat ((sig.drop 32).take 32)
       then natToBe32 (SECP256K1_N - beNat ((sig.drop 32).take 32))
       else (sig.drop 32).take 32) pubXY with
  | some v0 =>
    rw [hs] at hok
    injection hok with hok2
    cases hok2
    exact searchRecoveryId_sound hs
  | none =>
    rw [hs] at hok
    cases hok

/-- Witness for C2: a stubbed `ecrecover` that only answers candidate 0
with the expected key; the resolver picks v = 0 and recovery over the
returned values reproduces the key. -/
theorem C2_witness :
    (fun (_ : List Nat) (cand : Nat) (_ _ : List Nat) =>
        if cand = 0 then some (List.replicate 64 7) else none)
      (List.replicate 32 3) 0 (List.replicate 32 1) (List.replicate 32 1) =
      some (List.replicate 64 7) :=
  C2_recovery_round_trip
    (fun (_ : List Nat) (cand : Nat) (_ _ : List Nat) =>
      if cand = 0 then some (List.replicate 64 7) else none)
    (List.replicate 64 1) ([0x04, 65, 0x04] ++ List.replicate 64 7)
    (List.replicate 32 3) (List.replicate 64 7) (List.replicate 32 1) (List.replicate 32 1)
    0 (by decide) (by rfl) (by rfl)

/-- C7: the source RLP encoder is total on RLPValue (byte-strings and
nested lists) and agrees everywhere with the encoding written from the
spec's rules: a single byte below 0x80 as itself, other byte-strings behind
a 0x80/0xb7 length header with minimal big-endian length bytes, and lists
as concatenated element encodings behind a 0xc0/0xf7 header. -/
theorem C7_rlp_encoder_follows_spec (v : RLPValue) :
    rlpEncode (toRlpInput v) = rlpSpec v :=
  rlp_code_eq_spec v

/-- C4: the legacy-transaction builder signs exactly the Keccak-256 hash of
the RLP-encoded 9-tuple (nonce, gasPrice, gasLimit, to, value, data,
chainId, empty, empty), and — given the resolver's normalized signature
(r, s, recId) over that hash — broadcasts the 0x-prefixed hex of the
RLP-encoded 9-tuple (nonce, gasPrice, gasLimit, to, value, data, vFinal,
stripLeadingZeros(r), stripLeadingZeros(s)) with
vFinal = chainId*2 + 35 + recId. -/
theorem C4_legacy_transaction_builder (keccak : List Nat → List Nat) (ecr : EcRecover)
    (hsmSig ecPoint : List Nat) (nonce gasPriceWei : Int) (p : TxParams)
    (r s : List Nat) (v : Nat)
    (hsig : signHashWithHsmAndComputeV ecr hsmSig ecPoint
        (buildUnsignedForSigning keccak (toBufferFromNumber nonce)
          (toBufferFromNumber gasPriceWei) (toBufferFromHexOrNumber p.gasLimit)
          (codeToBuf p.toAddr) (toBufferFromHexOrNumber (p.valueWei.getD (.num 0)))
          (codeToBuf p.data)
          (toBufferFromNumber ((p.chainId.getD 11155111 : Nat) : Int))) = .ok ⟨r, s, v⟩) :
    signAndSendEtherTransaction keccak ecr hsmSig ecPoint nonce gasPriceWei p =
      .ok (finalizeTransaction (p.chainId.getD 11155111) v (toBufferFromNumber nonce)
        (toBufferFromNumber gasPriceWei) (toBufferFromHexOrNumber p.gasLimit)
        (codeToBuf p.toAddr) (toBufferFromHexOrNumber (p.valueWei.getD (.num 0)))
        (codeToBuf p.data) r s) := by
  unfold buildUnsignedForSigning at hsig
  unfold signAndSendEtherTransaction
  dsimp only
  have hu := rlp_code_eq_spec (RLPValue.list [.bytes (toBufferFromNumber nonce),
    .bytes (toBufferFromNumber gasPriceWei), .bytes (toBufferFromHexOrNumber p.gasLimit),
    .bytes (codeToBuf p.toAddr), .bytes (toBufferFromHexOrNumber (p.valueWei.getD (.num 0))),
    .bytes (codeToBuf p.data),
    .bytes (toBufferFromNumber ((p.chainId.getD 11155111 : Nat) : Int)),
    .bytes [], .bytes []])
  simp only [toRlpInput, toRlpInputList] at hu
  rw [hu, hsig]
  dsimp only
  rw [toBufferFromNumber_natCast (vFinalOf (p.chainId.getD 11155111) v)
    (by unfold vFinalOf; omega)]
  have hs2 := rlp_code_eq_spec (RLPValue.list [.bytes (toBufferFromNumber nonce),
    .bytes (toBufferFromNumber gasPriceWei), .bytes (toBufferFromHexOrNumber p.gasLimit),
    .bytes (codeToBuf p.toAddr), .bytes (toBufferFromHexOrNumber (p.valueWei.getD (.num 0))),
    .bytes (codeToBuf p.data),
    .bytes (natToBeBytes (vFinalOf (p.chainId.getD 11155111) v)),
    .bytes (stripLeadingZeros r), .bytes (stripLeadingZeros s)])
  simp only [toRlpInput, toRlpInputList] at hs2
  rw [hs2]
  rfl

/-- Witness for C4: a fully concrete transaction — chainId 1, gas limit
21000, recipient 0xab, value 5 wei, no data, nonce 0, gas price 7 — signed
with stubbed Keccak, ecrecover, and HSM signature. -/
theorem C4_witness :
    signAndSendEtherTransaction (fun _ => List.replicate 32 3)
      (fun _ _ _ _ => some (List.replicate 64 7)) (List.replicate 64 1)
      ([0x04, 65, 0x04] ++ List.replicate 64 7) 0 7
      ⟨some 1, .num 21000, some (.hexStr [0xAB]), some (.num 5), none⟩ =
      .ok (finalizeTransaction 1 0 (toBufferFromNumber 0) (toBufferFromNumber 7)
        (toBufferFromHexOrNumber (.num 21000)) (codeToBuf (some (.hexStr [0xAB])))
        (toBufferFromHexOrNumber (.num 5)) (codeToBuf none) (List.replicate 32 1)
        (List.replicate 32 1)) :=
  C4_legacy_transaction_builder (fun _ => List.replicate 32 3)
    (fun _ _ _ _ => some (List.replicate 64 7)) (List.replicate 64 1)
    ([0x04, 65, 0x04] ++ List.replicate 64 7) 0 7
    ⟨some 1, .num 21000, some (.hexStr [0xAB]), some (.num 5), none⟩
    (List.replicate 32 1) (List.replicate 32 1) 0 (by rfl)

/-- Witness for C10: the truncation branch applied at the 4-byte buffer
[04 0A 04 01], whose declared content length 10 exceeds the 2 available
bytes — decoding succeeds with the truncated slice. -/
theorem C10_witness : decodeEcPoint [0x04, 10, 0x04, 0x01] = .ok [0x04, 0x01] :=
  C10_no_bounds_check.1 [0x04, 10, 0x04, 0x01] (by decide) (by decide)
